import Mathlib

/-!
Verification of the resilient update-check and telemetry-ingestion core of
the PowerDock LVGL application (main.backup.c) against its design
specification.  The C functions relevant to the claims are embedded as
executable Lean definitions; environment effects (popen output, curl
results, file contents) are passed in explicitly.
-/

namespace PowerDock

/-! ## Version comparison (is_newer_version, main.backup.c lines 338-350)

The C code parses both strings with sscanf using three int conversions
separated by literal dots; variables are initialised to 0 so missing
components default to 0.  We embed the sscanf scan faithfully: each int
conversion skips whitespace, reads an optional sign and at least one digit,
and the scan stops at the first conversion or literal that fails. -/

def isDigitCh (c : Char) : Bool := decide (('0' : Char) ≤ c) && decide (c ≤ ('9' : Char))

def isSpaceCh (c : Char) : Bool :=
  c == (' ' : Char) || c == ('\t' : Char) || c == ('\n' : Char) ||
  c == ('\r' : Char) || c == ('\u000B' : Char) || c == ('\u000C' : Char)

/-- Split a character list into its maximal leading digit run and the rest. -/
def takeDigits : List Char → List Char × List Char
  | [] => ([], [])
  | c :: cs =>
    if isDigitCh c then
      let r := takeDigits cs
      (c :: r.1, r.2)
    else ([], c :: cs)

def digitsVal (ds : List Char) : Nat :=
  ds.foldl (fun a c => a * 10 + (c.toNat - 48)) 0

/-- One sscanf int conversion: skip whitespace, optional sign, then at
least one digit; returns the value and the unread remainder, or none on a
matching failure. -/
def readInt (cs : List Char) : Option (Int × List Char) :=
  match cs.dropWhile isSpaceCh with
  | [] => none
  | c :: rest =>
    if c == ('-' : Char) then
      match takeDigits rest with
      | ([], _) => none
      | (ds, r) => some (-(digitsVal ds : Int), r)
    else if c == ('+' : Char) then
      match takeDigits rest with
      | ([], _) => none
      | (ds, r) => some ((digitsVal ds : Int), r)
    else
      match takeDigits (c :: rest) with
      | ([], _) => none
      | (ds, r) => some ((digitsVal ds : Int), r)

/-- Matching the literal dot of the format string: succeeds exactly when
the remainder starts with a dot, consuming it. -/
def afterDot (r : List Char) : Option (List Char) :=
  match r with
  | [] => none
  | c :: rest => if c == ('.' : Char) then some rest else none

/-- The whole scan of a version string with three int conversions joined by
literal dots, as in the C code.  Returns the three values (unassigned ones
stay 0), the count of assigned conversions, and the unread remainder. -/
def sscanf3 (cs : List Char) : (Int × Int × Int) × Nat × List Char :=
  match readInt cs with
  | none => ((0, 0, 0), 0, cs)
  | some (a, r1) =>
    match afterDot r1 with
    | none => ((a, 0, 0), 1, r1)
    | some r2 =>
      match readInt r2 with
      | none => ((a, 0, 0), 1, r1)
      | some (b, r3) =>
        match afterDot r3 with
        | none => ((a, b, 0), 2, r3)
        | some r4 =>
          match readInt r4 with
          | none => ((a, b, 0), 2, r3)
          | some (c, r5) => ((a, b, c), 3, r5)

def parseVersion (s : String) : Int × Int × Int := (sscanf3 s.toList).1

/-- The comparison cascade of is_newer_version, on already parsed triples. -/
def is_newer_triple (cur lat : Int × Int × Int) : Bool :=
  if lat.1 > cur.1 then true
  else if lat.1 = cur.1 ∧ lat.2.1 > cur.2.1 then true
  else if lat.1 = cur.1 ∧ lat.2.1 = cur.2.1 ∧ lat.2.2 > cur.2.2 then true
  else false

def is_newer_version (current latest : String) : Bool :=
  is_newer_triple (parseVersion current) (parseVersion latest)

/-- Modelled from the spec: strict lexicographic order on
(major, minor, patch), the order the specification says the comparator
implements. -/
def lexLt (cur lat : Int × Int × Int) : Prop :=
  cur.1 < lat.1 ∨ (cur.1 = lat.1 ∧ (cur.2.1 < lat.2.1 ∨
    (cur.2.1 = lat.2.1 ∧ cur.2.2 < lat.2.2)))

/-! ## Connectivity probe (check_wifi_connection, lines 247-336)

Each popen/fgets pair is abstracted as an environment field:
none models popen failing, some none models fgets returning NULL
(no output, e.g. the tool is absent), some (some line) models a read
line.  strcspn truncation at the first newline and strstr substring
search are embedded directly. -/

def stripNl (s : String) : List Char :=
  s.toList.takeWhile (fun c => c != ('\n' : Char))

def listStarts : List Char → List Char → Bool
  | [], _ => true
  | _ :: _, [] => false
  | a :: as, b :: bs => a == b && listStarts as bs

/-- strstr: does hay contain needle as a contiguous substring? -/
def hasSubstr (hay needle : List Char) : Bool :=
  match hay with
  | [] => listStarts needle []
  | _ :: t => listStarts needle hay || hasSubstr t needle

structure ConnEnv where
  nmPopen : Option (Option String)
  genPopen : Option (Option String)
  wlanPopen : Option (Option String)
  routePopen : Option (Option String)
deriving DecidableEq, Repr

def check_wifi_connection (e : ConnEnv) : Bool :=
  match e.nmPopen with
  | none => false
  | some out1 =>
    let nm_active :=
      match out1 with
      | some line => stripNl line == "active".toList
      | none => false
    if !nm_active then false
    else
      match e.genPopen with
      | none => false
      | some out2 =>
        let has_connectivity :=
          match out2 with
          | some line => hasSubstr (stripNl line) "connected".toList
          | none => false
        if !has_connectivity then false
        else
          match e.wlanPopen with
          | none =>
            match e.routePopen with
            | none => false
            | some out4 =>
              match out4 with
              | some _ => true
              | none => false
          | some out3 =>
            match out3 with
            | some line =>
              hasSubstr (stripNl line) "connected".toList ||
              hasSubstr (stripNl line) "100".toList
            | none => false

/-- The result of the NetworkManager service check in isolation. -/
def nmReportsActive (e : ConnEnv) : Bool :=
  match e.nmPopen with
  | some (some line) => stripNl line == "active".toList
  | _ => false

/-- The result of the general network state check in isolation. -/
def genReportsConnected (e : ConnEnv) : Bool :=
  match e.genPopen with
  | some (some line) => hasSubstr (stripNl line) "connected".toList
  | _ => false

/-- The result of the wlan0 device check in isolation, with its
default-route fallback when the device check is unavailable. -/
def wlanReportsConnected (e : ConnEnv) : Bool :=
  match e.wlanPopen with
  | some (some line) =>
    hasSubstr (stripNl line) "connected".toList ||
    hasSubstr (stripNl line) "100".toList
  | some none => false
  | none =>
    match e.routePopen with
    | some (some _) => true
    | _ => false

/-! ## Update orchestrator (check_for_updates lines 352-483,
ui_event_btnCheckUpdates_cb lines 514-527, show_update_install_popup
lines 529-584, startup check in main lines 1737-1750)

The orchestrator state in the C code is the global
pending_update_version (NULL iff no install decision is pending, i.e.
Idle; non-NULL iff AwaitingConfirmation).  The network interaction is
abstracted as a CheckEnv describing what curl and the response body
yielded. -/

inductive FetchBody
  | unparsable
  | noTag
  | tag (t : String)
deriving DecidableEq, Repr

structure CheckEnv where
  curlInitOk : Bool
  curlOk : Bool
  httpCode : Int
  body : FetchBody
deriving DecidableEq, Repr

inductive UiEvent
  | tempLabel (msg : String)
  | installPopup (version : String)
deriving DecidableEq, Repr

structure CheckResult where
  pending : Option String
  events : List UiEvent
  fetchInvoked : Bool
deriving DecidableEq, Repr

def CURRENT_VERSION : String := "1.0.3"

/-- Strip one leading v character from the tag, as the C code does. -/
def stripV (s : String) : String :=
  match s.toList with
  | ('v' : Char) :: rest => String.mk rest
  | _ => s

def check_for_updates (env : CheckEnv) (pending : Option String) : CheckResult :=
  if !env.curlInitOk then
    ⟨pending, [.tempLabel "OTA: curl init failed"], false⟩
  else if !env.curlOk then
    ⟨pending, [.tempLabel "OTA: Connection failed"], true⟩
  else if env.httpCode = 401 then
    ⟨pending, [.tempLabel "OTA: Auth failed"], true⟩
  else if env.httpCode = 404 then
    ⟨pending, [.tempLabel "OTA: No releases found"], true⟩
  else if env.httpCode ≠ 200 then
    ⟨pending, [.tempLabel "OTA: API error"], true⟩
  else
    match env.body with
    | .unparsable => ⟨pending, [.tempLabel "OTA: Parse error"], true⟩
    | .noTag => ⟨pending, [.tempLabel "OTA: Invalid response"], true⟩
    | .tag t =>
      let latest := stripV t
      if is_newer_version CURRENT_VERSION latest then
        ⟨some latest, [.installPopup latest], true⟩
      else
        ⟨pending, [.tempLabel "Software is up to date"], true⟩

def ui_event_btnCheckUpdates_cb (clicked : Bool) (conn : ConnEnv)
    (env : CheckEnv) (pending : Option String) : CheckResult :=
  if !clicked then ⟨pending, [], false⟩
  else if !check_wifi_connection conn then
    ⟨pending, [.tempLabel "No WiFi connection"], false⟩
  else
    let r := check_for_updates env pending
    ⟨r.pending, .tempLabel "Checking for updates..." :: r.events, r.fetchInvoked⟩

/-- The OTA startup check in main: run check_for_updates only when the
connectivity probe succeeds and the OTA dropdown selects option 1. -/
def ota_startup_check (conn : ConnEnv) (otaSelected : Nat) (env : CheckEnv)
    (pending : Option String) : CheckResult :=
  if check_wifi_connection conn then
    if otaSelected = 1 then check_for_updates env pending
    else ⟨pending, [], false⟩
  else ⟨pending, [], false⟩

/-! ## Telemetry ingestor (update_from_json, lines 1357-1551)

The function-local static variables was_successful, last_error_log,
consecutive_errors and last_voltage_warn form the ingestion state.  The
feed file and the outcome of reading and parsing it are abstracted as a
PollInput; the cJSON document is abstracted just deeply enough for the
paths the function takes (modules key present or not, an array or not,
and per entry whether bus_voltage exists and is a number).  The display
surface is a list of eight per-module records holding the bar value, the
number rendered into the percent label and the voltage rendered into the
voltage label.  Float arithmetic is modelled over the rationals with the
C cast to int embedded as truncation toward zero. -/

def MAX_MODULES : Nat := 8

structure IngestState where
  was_successful : Bool
  last_error_log : Int
  consecutive_errors : Nat
  last_voltage_warn : List Int
deriving DecidableEq, Repr

structure ModuleDisplay where
  barValue : Int
  percentLabel : Int
  voltageLabel : ℚ
deriving DecidableEq, Repr

inductive ModuleEntry
  | noBusVoltage
  | busNotNumber
  | busVoltage (v : ℚ)
deriving DecidableEq, Repr

inductive ParsedDoc
  | noModulesKey
  | modulesNotArray
  | modulesArr (ms : List ModuleEntry)
deriving DecidableEq, Repr

inductive ReadResult
  | openFail
  | mallocFail
  | content (c : Option ParsedDoc)
deriving DecidableEq, Repr

inductive PollInput
  | noFile
  | file (size : Nat) (rd : ReadResult)
deriving DecidableEq, Repr

inductive LogEvent
  | fileNotFound
  | openFailed
  | mallocFailed
  | parseErrors (n : Nat)
  | recovered (n : Nat)
  | modulesKeyMissing
  | modulesNotArray
  | maxModulesWarn
  | lowVoltage (idx : Nat)
  | highVoltage (idx : Nat)
deriving DecidableEq, Repr

/-- C cast of a float to int: truncation toward zero. -/
def truncQ (x : ℚ) : Int := if 0 ≤ x then ⌊x⌋ else ⌈x⌉

/-- The percent computation of the module loop: scale the voltage from
the 18V..21V window to 0..100 percent, truncate, then clamp. -/
def clampPercent (v : ℚ) : Int :=
  let percent := truncQ ((v - 18) / (21 - 18) * 100)
  if percent < 0 then 0
  else if percent > 100 then 100
  else percent

/-- The two rate-limited out-of-range voltage warnings of the module
loop, together with their effect on last_voltage_warn. -/
def voltWarn (now : Int) (idx : Nat) (lvw : List Int) (v : ℚ) :
    List Int × List LogEvent :=
  let last := lvw.getD idx 0
  if v < 18 ∧ now - last > 60 then
    (lvw.set idx now, [.lowVoltage idx])
  else if v > 21 ∧ now - last > 60 then
    (lvw.set idx now, [.highVoltage idx])
  else (lvw, [])

/-- The per-module loop of update_from_json: bounded to MAX_MODULES with
a warning on overflow, entries without a numeric bus_voltage skipped
individually, and the three display fields of an updated slot pushed. -/
def processModules (now : Int) : List ModuleEntry → Nat → List Int →
    List ModuleDisplay → List Int × List ModuleDisplay × List LogEvent
  | [], _, lvw, disp => (lvw, disp, [])
  | e :: rest, idx, lvw, disp =>
    if idx ≥ MAX_MODULES then (lvw, disp, [.maxModulesWarn])
    else
      match e with
      | .noBusVoltage => processModules now rest (idx + 1) lvw disp
      | .busNotNumber => processModules now rest (idx + 1) lvw disp
      | .busVoltage v =>
        let w := voltWarn now idx lvw v
        let p := clampPercent v
        let disp1 := disp.set idx ⟨p, p, v⟩
        let r := processModules now rest (idx + 1) w.1 disp1
        (r.1, r.2.1, w.2 ++ r.2.2)

/-- One poll of update_from_json.  Returns the new ingestion state, the
new display surface and the emitted warning/error/info log events. -/
def update_from_json (inp : PollInput) (now : Int) (s : IngestState)
    (disp : List ModuleDisplay) :
    IngestState × List ModuleDisplay × List LogEvent :=
  match inp with
  | .noFile =>
    if s.was_successful then
      ({ s with was_successful := false }, disp, [.fileNotFound])
    else (s, disp, [])
  | .file size rd =>
    if size < 50 then (s, disp, [])
    else
      match rd with
      | .openFail =>
        if s.was_successful then
          ({ s with was_successful := false }, disp, [.openFailed])
        else (s, disp, [])
      | .mallocFail => (s, disp, [.mallocFailed])
      | .content none =>
        let ce := s.consecutive_errors + 1
        if (s.was_successful ∧ ce = 1) ∨
            (now - s.last_error_log > 10 ∧ ce > 20) then
          ({ s with was_successful := false, last_error_log := now, consecutive_errors := 0 },
            disp, [.parseErrors ce])
        else
          ({ s with was_successful := false, consecutive_errors := ce },
            disp, [])
      | .content (some doc) =>
        let recLog : List LogEvent :=
          if ¬s.was_successful ∨ s.consecutive_errors > 0 then
            if s.consecutive_errors > 5 then [.recovered s.consecutive_errors]
            else []
          else []
        let s1 : IngestState :=
          if ¬s.was_successful ∨ s.consecutive_errors > 0 then
            { s with was_successful := true, consecutive_errors := 0 }
          else s
        match doc with
        | .noModulesKey =>
          if s1.was_successful then
            ({ s1 with was_successful := false }, disp,
              recLog ++ [.modulesKeyMissing])
          else (s1, disp, recLog)
        | .modulesNotArray =>
          if s1.was_successful then
            ({ s1 with was_successful := false }, disp,
              recLog ++ [.modulesNotArray])
          else (s1, disp, recLog)
        | .modulesArr ms =>
          let r := processModules now ms 0 s1.last_voltage_warn disp
          ({ s1 with last_voltage_warn := r.1 }, r.2.1, recLog ++ r.2.2)

/-- The initial values of the static variables of update_from_json. -/
def initIngest : IngestState := ⟨true, 0, 0, List.replicate MAX_MODULES 0⟩

/-- The display before any successful poll (all zeroes). -/
def initDisplay : List ModuleDisplay := List.replicate MAX_MODULES ⟨0, 0, 0⟩

/-- Run a sequence of polls, accumulating the log events of each poll as
a separate list so a single poll's logging can be inspected. -/
def pollSeq : List (PollInput × Int) → IngestState → List ModuleDisplay →
    IngestState × List ModuleDisplay × List (List LogEvent)
  | [], s, disp => (s, disp, [])
  | (inp, now) :: rest, s, disp =>
    let r := update_from_json inp now s disp
    let rr := pollSeq rest r.1 r.2.1
    (rr.1, rr.2.1, r.2.2 :: rr.2.2)


/-- Predicate over the scan: does the head of the appended text fail to
be a digit (so it cannot extend the last digit run)? -/
def headNotDigit (ext : List Char) : Bool :=
  match ext with
  | [] => true
  | c :: _ => !isDigitCh c

/-- Recognizer for the recovery log notice among the emitted events. -/
def isRecoveredLog : LogEvent → Bool
  | .recovered _ => true
  | _ => false

/-- Modelled from the spec: the percent formula exactly as the
specification writes it, clamp(100*(voltage-VMIN)/(VMAX-VMIN), 0, 100),
over exact rational arithmetic. -/
def specPercent (v : ℚ) : ℚ := max 0 (min 100 (100 * (v - 18) / (21 - 18)))

/-! ## Helper lemmas -/

theorem beqListChar (a b : List Char) : (a == b) = decide (a = b) := by
  by_cases h : a = b <;> simp [h]

theorem dropWhile_append_of_ne (p : Char → Bool) (cs ext : List Char)
    (h : cs.dropWhile p ≠ []) :
    (cs ++ ext).dropWhile p = cs.dropWhile p ++ ext := by
  induction cs with
  | nil => simp at h
  | cons c cs ih =>
    by_cases hc : p c
    · simp only [List.cons_append, List.dropWhile_cons_of_pos hc] at h ⊢
      exact ih h
    · simp only [List.cons_append, List.dropWhile_cons_of_neg hc] at h ⊢

theorem takeDigits_append_of_rest (cs ext : List Char)
    (h : (takeDigits cs).2 ≠ []) :
    takeDigits (cs ++ ext) = ((takeDigits cs).1, (takeDigits cs).2 ++ ext) := by
  induction cs with
  | nil => simp [takeDigits] at h
  | cons c cs ih =>
    by_cases hc : isDigitCh c
    · simp only [takeDigits, hc, if_true, List.cons_append, List.append_eq] at h ⊢
      rw [ih h]
    · simp only [takeDigits, hc, if_false, Bool.false_eq_true, List.cons_append] at h ⊢
      rfl

theorem takeDigits_append_of_empty (cs ext : List Char)
    (h : (takeDigits cs).2 = []) (he : headNotDigit ext = true) :
    takeDigits (cs ++ ext) = ((takeDigits cs).1, ext) := by
  induction cs with
  | nil =>
    cases ext with
    | nil => rfl
    | cons c cs2 =>
      simp only [headNotDigit, Bool.not_eq_true'] at he
      simp [takeDigits, he]
  | cons c cs ih =>
    by_cases hc : isDigitCh c
    · simp only [takeDigits, hc, if_true, List.cons_append, List.append_eq] at h ⊢
      rw [ih h]
    · simp only [takeDigits, hc, if_false, Bool.false_eq_true] at h
      simp at h

theorem afterDot_append (r r2 ext : List Char) (h : afterDot r = some r2) :
    afterDot (r ++ ext) = some (r2 ++ ext) := by
  cases r with
  | nil => simp [afterDot] at h
  | cons c rest =>
    simp only [afterDot, List.cons_append] at h ⊢
    by_cases hc : c == ('.' : Char)
    · rw [if_pos hc] at h
      rw [if_pos hc]
      simp only [Option.some.injEq] at h ⊢
      rw [← h]
    · rw [if_neg hc] at h
      simp at h

theorem readInt_append (cs ext : List Char) (n : Int) (r : List Char)
    (h : readInt cs = some (n, r)) (he : headNotDigit ext = true) :
    readInt (cs ++ ext) = some (n, r ++ ext) := by
  unfold readInt at h ⊢
  cases h1 : cs.dropWhile isSpaceCh with
  | nil =>
    simp only [h1] at h
    exact Option.noConfusion h
  | cons c rest =>
    simp only [h1] at h
    have h2 : (cs ++ ext).dropWhile isSpaceCh = c :: (rest ++ ext) := by
      rw [dropWhile_append_of_ne isSpaceCh cs ext (by rw [h1]; simp), h1]
      rfl
    simp only [h2]
    have digits (xs : List Char) (m : Int) (rr : List Char)
        (hm : (match takeDigits xs with
          | ([], _) => none
          | (ds, rd) => some ((digitsVal ds : Int), rd)) = some (m, rr)) :
        (match takeDigits (xs ++ ext) with
          | ([], _) => none
          | (ds, rd) => some ((digitsVal ds : Int), rd)) = some (m, rr ++ ext) := by
      cases h3 : takeDigits xs with
      | mk ds rd =>
        simp only [h3] at hm
        cases ds with
        | nil => simp at hm
        | cons d ds2 =>
          simp only [Option.some.injEq, Prod.mk.injEq] at hm
          cases hr : rd with
          | nil =>
            have h4 := takeDigits_append_of_empty xs ext (by rw [h3, hr]) he
            rw [h3] at h4
            simp only [h4]
            simp [hm.1, ← hm.2, hr]
          | cons x xs2 =>
            have h4 := takeDigits_append_of_rest xs ext (by rw [h3, hr]; simp)
            rw [h3] at h4
            simp only [h4]
            simp [hm.1, ← hm.2]
    have digitsNeg (xs : List Char) (m : Int) (rr : List Char)
        (hm : (match takeDigits xs with
          | ([], _) => none
          | (ds, rd) => some (-(digitsVal ds : Int), rd)) = some (m, rr)) :
        (match takeDigits (xs ++ ext) with
          | ([], _) => none
          | (ds, rd) => some (-(digitsVal ds : Int), rd)) = some (m, rr ++ ext) := by
      cases h3 : takeDigits xs with
      | mk ds rd =>
        simp only [h3] at hm
        cases ds with
        | nil => simp at hm
        | cons d ds2 =>
          simp only [Option.some.injEq, Prod.mk.injEq] at hm
          cases hr : rd with
          | nil =>
            have h4 := takeDigits_append_of_empty xs ext (by rw [h3, hr]) he
            rw [h3] at h4
            simp only [h4]
            simp [hm.1, ← hm.2, hr]
          | cons x xs2 =>
            have h4 := takeDigits_append_of_rest xs ext (by rw [h3, hr]; simp)
            rw [h3] at h4
            simp only [h4]
            simp [hm.1, ← hm.2]
    by_cases hm : c == ('-' : Char)
    · rw [if_pos hm] at h ⊢
      exact digitsNeg rest n r h
    · rw [if_neg hm] at h ⊢
      by_cases hp : c == ('+' : Char)
      · rw [if_pos hp] at h ⊢
        exact digits rest n r h
      · rw [if_neg hp] at h ⊢
        have h5 := digits (c :: rest) n r h
        simpa using h5

theorem sscanf3_append (cs ext : List Char)
    (h3 : (sscanf3 cs).2.1 = 3) (he : headNotDigit ext = true) :
    (sscanf3 (cs ++ ext)).1 = (sscanf3 cs).1 := by
  unfold sscanf3 at h3 ⊢
  cases ha : readInt cs with
  | none =>
    simp only [ha] at h3
    exact absurd h3 (by decide)
  | some v =>
    obtain ⟨a, r1⟩ := v
    simp only [ha] at h3 ⊢
    rw [readInt_append cs ext a r1 ha he]
    cases hd1 : afterDot r1 with
    | none =>
      simp only [hd1] at h3
      exact absurd h3 (by decide)
    | some r2 =>
      simp only [hd1] at h3 ⊢
      rw [afterDot_append r1 r2 ext hd1]
      cases hb : readInt r2 with
      | none =>
        simp only [hb] at h3
        exact absurd h3 (by decide)
      | some w =>
        obtain ⟨b, r3⟩ := w
        simp only [hb] at h3 ⊢
        rw [readInt_append r2 ext b r3 hb he]
        cases hd2 : afterDot r3 with
        | none =>
          simp only [hd2] at h3
          exact absurd h3 (by decide)
        | some r4 =>
          simp only [hd2] at h3 ⊢
          rw [afterDot_append r3 r4 ext hd2]
          cases hc : readInt r4 with
          | none =>
            simp only [hc] at h3
            exact absurd h3 (by decide)
          | some u =>
            obtain ⟨c, r5⟩ := u
            simp only [hc] at h3 ⊢
            rw [readInt_append r4 ext c r5 hc he]

theorem is_newer_triple_self (t : Int × Int × Int) :
    is_newer_triple t t = false := by
  obtain ⟨a, b, c⟩ := t
  unfold is_newer_triple
  split_ifs <;> first | rfl | omega

theorem processModules_no_recovered (now : Int) (ms : List ModuleEntry)
    (idx : Nat) (lvw : List Int) (d : List ModuleDisplay) :
    ((processModules now ms idx lvw d).2.2).any isRecoveredLog = false := by
  induction ms generalizing idx lvw d with
  | nil => rfl
  | cons e rest ih =>
    simp only [processModules]
    split_ifs
    · rfl
    · cases e with
      | noBusVoltage => exact ih _ _ _
      | busNotNumber => exact ih _ _ _
      | busVoltage v =>
        simp only [voltWarn, List.any_append]
        split_ifs <;> simp [isRecoveredLog, ih]

/-! ## Claim theorems -/

/-- Claim C1, counterexample: in state AwaitingConfirmation (the global
pending version is "1.0.4"), a second button-driven check whose fetch
yields tag v1.0.5 is not a no-op: it runs the full check, publishes
events and replaces the pending version, so the update state is changed
by the second call. -/
theorem c1_counterexample :
    (ui_event_btnCheckUpdates_cb true
        ⟨some (some "active"), some (some "connected"), some (some "100 (connected)"), none⟩
        ⟨true, true, 200, .tag "v1.0.5"⟩ (some "1.0.4")).pending ≠ some "1.0.4" ∧
    (ui_event_btnCheckUpdates_cb true
        ⟨some (some "active"), some (some "connected"), some (some "100 (connected)"), none⟩
        ⟨true, true, 200, .tag "v1.0.5"⟩ (some "1.0.4")).events ≠ [] := by
  decide

/-- Claim C1, amended: the code has no in-flight guard at all.  A second
checkForUpdate call behaves exactly like a first call from Idle: it
publishes the same events, performs the same network activity, and the
pending version is replaced by the newly found version whenever the new
check reaches the install popup, being left unchanged otherwise. -/
theorem c1_second_call_like_first (conn : ConnEnv) (env : CheckEnv) (p : Option String) :
    (ui_event_btnCheckUpdates_cb true conn env p).events =
      (ui_event_btnCheckUpdates_cb true conn env none).events ∧
    (ui_event_btnCheckUpdates_cb true conn env p).fetchInvoked =
      (ui_event_btnCheckUpdates_cb true conn env none).fetchInvoked ∧
    (ui_event_btnCheckUpdates_cb true conn env p).pending =
      Option.or (ui_event_btnCheckUpdates_cb true conn env none).pending p := by
  unfold ui_event_btnCheckUpdates_cb check_for_updates
  cases hw : check_wifi_connection conn
  · simp [Option.or]
  · obtain ⟨ci, co, code, body⟩ := env
    cases ci <;> cases co <;> rcases body with _ | _ | t <;>
      simp [Option.or] <;> split_ifs <;> simp [Option.or]

/-- Claim C2, counterexample: starting healthy, three consecutive
malformed polls then one valid poll.  The first malformed poll logs and
resets the streak counter to 0, so the counter reaches only 2; the valid
poll does reset it to 0 but emits no recovery notice, because the notice
requires a streak greater than 5. -/
theorem c2_counterexample :
    (pollSeq [(.file 60 (.content none), 100), (.file 60 (.content none), 101),
        (.file 60 (.content none), 102)] initIngest initDisplay).1.consecutive_errors = 2 ∧
    (pollSeq [(.file 60 (.content none), 100), (.file 60 (.content none), 101),
        (.file 60 (.content none), 102), (.file 60 (.content (some (.modulesArr []))), 103)]
        initIngest initDisplay).1.consecutive_errors = 0 ∧
    (pollSeq [(.file 60 (.content none), 100), (.file 60 (.content none), 101),
        (.file 60 (.content none), 102), (.file 60 (.content (some (.modulesArr []))), 103)]
        initIngest initDisplay).2.2 = [[.parseErrors 1], [], [], []] := by
  decide

/-- Claim C2, amended: a successful parse always resets the
consecutive-failure counter to 0, and the one-line recovery notice is
emitted on that poll exactly when the counter exceeded 5 at the moment
of the successful parse (not whenever it was nonzero). -/
theorem c2_recovery (k : Nat) (doc : ParsedDoc) (now : Int)
    (s : IngestState) (d : List ModuleDisplay) :
    (update_from_json (.file (50 + k) (.content (some doc))) now s d).1.consecutive_errors = 0 ∧
    (((update_from_json (.file (50 + k) (.content (some doc))) now s d).2.2).any isRecoveredLog
      = true ↔ 5 < s.consecutive_errors) := by
  have hk : ¬ (50 + k < 50) := by omega
  simp only [update_from_json]
  rw [if_neg hk]
  cases doc with
  | noModulesKey =>
    split_ifs <;> simp_all [isRecoveredLog]
  | modulesNotArray =>
    split_ifs <;> simp_all [isRecoveredLog]
  | modulesArr ms =>
    split_ifs <;>
      simp_all [isRecoveredLog, processModules_no_recovered]

/-- Claim C3, counterexample: when the NetworkManager check yields no
readable output (tool absent), the probe returns false immediately even
though the general-state check and the wlan0 check would both report
connectivity, refuting the every-check-falls-through reading. -/
theorem c3_counterexample :
    check_wifi_connection ⟨some none, some (some "connected"), some (some "connected"), some (some "default via 192.168.0.1")⟩ = false ∧
    genReportsConnected ⟨some none, some (some "connected"), some (some "connected"), some (some "default via 192.168.0.1")⟩ = true ∧
    wlanReportsConnected ⟨some none, some (some "connected"), some (some "connected"), some (some "default via 192.168.0.1")⟩ = true := by
  decide

/-- Claim C3, amended: the first two checks are mandatory gates, not
advisory ones.  The probe returns true exactly when the NetworkManager
check reports active, the general-state check reports connected, and
the wlan0 device check (falling back to the default-route check only
when the device check is unavailable) reports connectivity; a failure in
either of the first two checks makes the whole probe return false. -/
theorem c3_gating (e : ConnEnv) :
    check_wifi_connection e =
      (nmReportsActive e && genReportsConnected e && wlanReportsConnected e) := by
  obtain ⟨nm, gen, wlan, route⟩ := e
  rcases nm with _ | (_ | l1) <;>
    rcases gen with _ | (_ | l2) <;>
      rcases wlan with _ | (_ | l3) <;>
        rcases route with _ | (_ | l4) <;>
          simp [check_wifi_connection, nmReportsActive, genReportsConnected,
            wlanReportsConnected, Bool.and_assoc, beqListChar]

/-- Claim C4: an update check answered with HTTP 404 leaves the
orchestrator Idle (the pending version is unchanged, in particular none
stays none), publishes exactly the "No releases found" classified
message and never the authentication-failure message; the same
environment with HTTP 401 publishes the distinct "Auth failed"
message. -/
theorem c4_http404 (conn : ConnEnv) (env : CheckEnv)
    (hconn : check_wifi_connection conn = true)
    (hinit : env.curlInitOk = true) (hok : env.curlOk = true)
    (hcode : env.httpCode = 404) :
    ui_event_btnCheckUpdates_cb true conn env none =
      ⟨none, [.tempLabel "Checking for updates...", .tempLabel "OTA: No releases found"], true⟩ ∧
    (∀ p : Option String, (ui_event_btnCheckUpdates_cb true conn env p).pending = p) ∧
    UiEvent.tempLabel "OTA: Auth failed" ∉
      (ui_event_btnCheckUpdates_cb true conn env none).events ∧
    check_for_updates { env with httpCode := 401 } none =
      ⟨none, [.tempLabel "OTA: Auth failed"], true⟩ ∧
    ("OTA: No releases found" : String) ≠ "OTA: Auth failed" := by
  have h404 : ¬ (env.httpCode = 401) := by rw [hcode]; decide
  refine ⟨?_, ?_, ?_, ?_, by decide⟩
  · simp [ui_event_btnCheckUpdates_cb, check_for_updates, hconn, hinit, hok, hcode, h404]
  · intro p
    simp [ui_event_btnCheckUpdates_cb, check_for_updates, hconn, hinit, hok, hcode, h404]
  · simp [ui_event_btnCheckUpdates_cb, check_for_updates, hconn, hinit, hok, hcode, h404]
  · simp [check_for_updates, hinit, hok]

/-- Claim C4, witness: a concrete connected environment whose fetch
returns HTTP 404 ends Idle with the not-found message. -/
theorem c4_witness :
    ui_event_btnCheckUpdates_cb true
        ⟨some (some "active"), some (some "connected"), some (some "100 (connected)"), none⟩
        ⟨true, true, 404, .unparsable⟩ none =
      ⟨none, [.tempLabel "Checking for updates...", .tempLabel "OTA: No releases found"], true⟩ := by
  exact (c4_http404 _ _ (by decide) (by decide) (by decide) (by decide)).1

/-- Claim C5: whenever the connectivity probe reports false, the
button-driven check publishes only the no-WiFi message, leaves the
pending state unchanged and performs no network activity at all, and
the startup check likewise skips the network entirely. -/
theorem c5_probe_false_no_fetch (conn : ConnEnv) (env : CheckEnv)
    (p : Option String) (sel : Nat)
    (h : check_wifi_connection conn = false) :
    ui_event_btnCheckUpdates_cb true conn env p =
      ⟨p, [.tempLabel "No WiFi connection"], false⟩ ∧
    ota_startup_check conn sel env p = ⟨p, [], false⟩ := by
  constructor
  · simp [ui_event_btnCheckUpdates_cb, h]
  · simp [ota_startup_check, h]

/-- Claim C5, witness: with every probe subcommand unavailable the probe
is false and the check does not touch the network. -/
theorem c5_witness :
    check_wifi_connection ⟨none, none, none, none⟩ = false ∧
    ui_event_btnCheckUpdates_cb true ⟨none, none, none, none⟩
        ⟨true, true, 200, .tag "v9.9.9"⟩ none =
      ⟨none, [.tempLabel "No WiFi connection"], false⟩ := by
  refine ⟨by decide, ?_⟩
  exact (c5_probe_false_no_fetch _ _ _ 1 (by decide)).1

/-- Claim C6: on parsed (major, minor, patch) triples the comparison
cascade of is_newer_version returns true exactly when the candidate is
strictly greater in lexicographic order, the same characterization holds
for whole version strings through the sscanf parse, and the four quoted
examples evaluate as the specification states. -/
theorem c6_lexicographic :
    (∀ cur lat : Int × Int × Int, is_newer_triple cur lat = true ↔ lexLt cur lat) ∧
    (∀ current latest : String,
      is_newer_version current latest = true ↔
        lexLt (parseVersion current) (parseVersion latest)) ∧
    is_newer_version "1.0.3" "1.0.4" = true ∧
    is_newer_version "1.0.3" "1.0.3" = false ∧
    is_newer_version "1.2.0" "1.1.9" = false ∧
    is_newer_version "1.0.3" "2.0.0" = true := by
  have key : ∀ cur lat : Int × Int × Int, is_newer_triple cur lat = true ↔ lexLt cur lat := by
    rintro ⟨a, b, c⟩ ⟨d, e, f⟩
    simp only [is_newer_triple, lexLt]
    split_ifs <;> simp_all
  exact ⟨key, fun c l => key _ _, by decide, by decide, by decide, by decide⟩

/-- Claim C7: a poll whose file contents fail to parse as JSON leaves
every displayed reading (bar values, percent labels, voltage labels of
all modules) exactly as it was: the display component of the result is
the input display, for every file size, time and prior state. -/
theorem c7_parse_failure_display_unchanged (size : Nat) (now : Int)
    (s : IngestState) (d : List ModuleDisplay) :
    (update_from_json (.file size (.content none)) now s d).2.1 = d := by
  simp only [update_from_json]
  split_ifs <;> rfl

/-- Claim C8: a poll that finds the feed file present but below the
50-byte floor is a complete no-op regardless of the prior health state:
the ingestion state, the display and the log output are all untouched,
whatever reading the file would have produced. -/
theorem c8_small_file_noop (size : Nat) (rd : ReadResult) (now : Int)
    (s : IngestState) (d : List ModuleDisplay) (h : size < 50) :
    update_from_json (.file size rd) now s d = (s, d, []) := by
  simp only [update_from_json]
  rw [if_pos h]

/-- Claim C8, witness: a 10-byte file after an unhealthy poll, with
malformed contents, changes nothing and logs nothing. -/
theorem c8_witness :
    update_from_json (.file 10 (.content none)) 0
        ⟨false, 0, 3, List.replicate 8 0⟩ initDisplay =
      (⟨false, 0, 3, List.replicate 8 0⟩, initDisplay, []) :=
  c8_small_file_noop 10 _ 0 _ _ (by decide)

/-- Claim C9, counterexample: for bus voltage 20.5 the code displays
percent 83 (C truncation of 83.33), while the exact clamp formula of the
claim evaluates to 250/3, which 83 is not; so the displayed percent does
not equal the exact formula value for every voltage. -/
theorem c9_counterexample :
    (update_from_json (.file 60 (.content (some (.modulesArr [.busVoltage (41/2)])))) 0
        initIngest initDisplay).2.1 = initDisplay.set 0 ⟨83, 83, 41/2⟩ ∧
    specPercent (41/2) = 250/3 ∧
    ((83 : ℚ) ≠ 250/3) := by
  have hp : clampPercent (41/2) = 83 := by
    have h1 : truncQ ((41/2 - 18) / (21 - 18) * 100 : ℚ) = 83 := by
      unfold truncQ
      rw [if_pos (by norm_num)]
      norm_num
    unfold clampPercent
    rw [h1]
    norm_num
  refine ⟨?_, ?_, by norm_num⟩
  · simp only [update_from_json]
    rw [if_neg (by norm_num)]
    simp only [processModules, MAX_MODULES, initIngest]
    norm_num [voltWarn, hp]
  · unfold specPercent
    rw [show ((100 : ℚ) * (41/2 - 18) / (21 - 18)) = 250/3 by norm_num]
    rw [min_eq_right (by norm_num), max_eq_right (by norm_num)]

/-- Claim C9, amended: the displayed percent for a numeric bus voltage v
is clamp(trunc(100*(v-18)/(21-18)), 0, 100) with truncation toward zero
(the C int cast), pushed to the bar, the percent label and the voltage
label of the module slot; at v = 19.5 this is exactly 50, and for every
voltage the result lies within 0..100. -/
theorem c9_percent_derivation (v : ℚ) (now : Int) (s : IngestState)
    (d : List ModuleDisplay) (k : Nat) :
    (update_from_json (.file (50 + k) (.content (some (.modulesArr [.busVoltage v])))) now
        s d).2.1 = d.set 0 ⟨clampPercent v, clampPercent v, v⟩ ∧
    clampPercent (39/2) = 50 ∧
    (∀ w : ℚ, 0 ≤ clampPercent w ∧ clampPercent w ≤ 100) := by
  refine ⟨?_, ?_, ?_⟩
  · have hk : ¬ (50 + k < 50) := by omega
    simp only [update_from_json]
    rw [if_neg hk]
    simp only [processModules, MAX_MODULES]
    norm_num [voltWarn]
  · have h1 : truncQ ((39/2 - 18) / (21 - 18) * 100 : ℚ) = 50 := by
      unfold truncQ
      rw [if_pos (by norm_num)]
      norm_num
    unfold clampPercent
    rw [h1]
    norm_num
  · intro w
    simp only [clampPercent]
    split_ifs <;> omega

/-- Claim C10: when a version string already yields all three sscanf
conversions, appending further dotted components (any suffix not
starting with a digit) does not change the parsed triple, so the
extended candidate compares equal to the original in both directions
and is never reported as newer. -/
theorem c10_trailing_components (s ext : String)
    (h3 : (sscanf3 s.toList).2.1 = 3)
    (he : headNotDigit ext.toList = true) :
    parseVersion (s ++ ext) = parseVersion s ∧
    is_newer_version s (s ++ ext) = false ∧
    is_newer_version (s ++ ext) s = false := by
  have hl : (s ++ ext).toList = s.toList ++ ext.toList := by
    simp [String.toList]
  have hp : parseVersion (s ++ ext) = parseVersion s := by
    unfold parseVersion
    rw [hl, sscanf3_append s.toList ext.toList h3 he]
  refine ⟨hp, ?_, ?_⟩ <;> unfold is_newer_version <;> rw [hp] <;>
    exact is_newer_triple_self _

/-- Claim C10, witness: the quoted example, candidate 1.0.3.9 against
current 1.0.3, parses to the same triple and is not reported newer. -/
theorem c10_witness :
    (sscanf3 ("1.0.3").toList).2.1 = 3 ∧
    headNotDigit (".9").toList = true ∧
    parseVersion ("1.0.3" ++ ".9") = parseVersion "1.0.3" ∧
    is_newer_version "1.0.3" ("1.0.3" ++ ".9") = false := by
  refine ⟨by decide, by decide, ?_, ?_⟩
  · exact (c10_trailing_components "1.0.3" ".9" (by decide) (by decide)).1
  · exact (c10_trailing_components "1.0.3" ".9" (by decide) (by decide)).2.1

end PowerDock
